import Mathlib

/-!
Verification of the IcyHotPrevention (IETY) ingestion system against its
natural-language specification.

The definitions below are shallow embeddings of the Python source:

* `iety/cost/circuit_breaker.py` and `iety/cost/tracker.py` — budget circuit
  breaker (`get_status`, `check_budget`, `can_spend`) over an exact-rational
  model of `Decimal`/`float` money arithmetic;
* `iety/config.py` — the `BudgetSettings.validate_threshold` field validator;
* `iety/cost/rate_limiter.py` — the token bucket (`_refill`, `try_acquire`),
  with `time.monotonic()` passed explicitly as `now`;
* `iety/processing/chunking.py` — the token-window loop of
  `TextChunker.chunk_text`, modelled on token indices with explicit fuel
  (the Python loop is a `while`, so fuel exhaustion models divergence);
* `iety/ingestion/base.py` — `PipelineStats`, `save_checkpoint` (the
  `ON CONFLICT` upsert into `integration.sync_state`) and the `run` loop,
  generic over the adapter-supplied `fetch_batch`/`transform`/`upsert`;
* `iety/processing/embeddings.py` — the dedup/cost-counting skeleton of
  `EmbeddingService.embed_texts` and `embed_and_store`, with the SHA-256
  content hash and the chunker abstracted as function parameters;
* `iety/processing/search.py` — the RRF score-map construction of
  `HybridSearch.hybrid_search`.

Money and rate arithmetic use `ℚ`; `Decimal`/`float` values appearing in the
claims are exactly representable and all comparisons agree with the source.
-/

namespace IETY

/-! ## Budget circuit breaker (`iety/cost/circuit_breaker.py`) -/

/-- States of the budget circuit breaker (`BudgetState` enum). -/
inductive BudgetState where
  | NORMAL
  | WARNING
  | HALTED
deriving DecidableEq

/-- Fields of `BudgetCircuitBreaker` relevant to budget decisions
(`session`/callbacks omitted; `_state` is the memoized state field). -/
structure BudgetCircuitBreaker where
  monthly_budget : ℚ
  warning_threshold : ℚ
  halt_threshold : ℚ
  state : BudgetState
deriving DecidableEq

/-- `BudgetCircuitBreaker.__init__`: stores the arguments unvalidated and
initializes `_state` to `NORMAL`.  The Python constructor performs no
range check on either threshold. -/
def BudgetCircuitBreaker.init
    (monthly_budget warning_threshold halt_threshold : ℚ) : BudgetCircuitBreaker :=
  { monthly_budget := monthly_budget
    warning_threshold := warning_threshold
    halt_threshold := halt_threshold
    state := BudgetState.NORMAL }

/-- The default construction `BudgetCircuitBreaker(session)`:
`monthly_budget=Decimal("50.00")`, `warning_threshold=0.90`,
`halt_threshold=0.95`. -/
def defaultBreaker : BudgetCircuitBreaker :=
  BudgetCircuitBreaker.init 50 (9 / 10) (19 / 20)

/-- `CostTracker.get_monthly_summary`: `budget_percent_used =
float(total_cost / monthly_budget) if monthly_budget else 0`. -/
def budget_percent_used (total_cost monthly_budget : ℚ) : ℚ :=
  if monthly_budget ≠ 0 then total_cost / monthly_budget else 0

/-- The `BudgetStatus` dataclass. -/
structure BudgetStatus where
  state : BudgetState
  current_spend : ℚ
  budget_limit : ℚ
  percent_used : ℚ
  remaining : ℚ
  warning_threshold : ℚ
  halt_threshold : ℚ
deriving DecidableEq

/-- `BudgetCircuitBreaker.get_status`: recompute the state from the ledger
total (`total_cost`): `HALTED` if `percent ≥ halt_threshold`, else `WARNING`
if `percent ≥ warning_threshold`, else `NORMAL`. -/
def get_status (b : BudgetCircuitBreaker) (total_cost : ℚ) : BudgetStatus :=
  let percent := budget_percent_used total_cost b.monthly_budget
  let st :=
    if b.halt_threshold ≤ percent then BudgetState.HALTED
    else if b.warning_threshold ≤ percent then BudgetState.WARNING
    else BudgetState.NORMAL
  { state := st
    current_spend := total_cost
    budget_limit := b.monthly_budget
    percent_used := percent
    remaining := b.monthly_budget - total_cost
    warning_threshold := b.warning_threshold
    halt_threshold := b.halt_threshold }

/-- Payload of `BudgetExceededError`. -/
structure BudgetExceededInfo where
  current_spend : ℚ
  budget_limit : ℚ
  percent_used : ℚ
deriving DecidableEq

/-- `BudgetCircuitBreaker.check_budget`: raises `BudgetExceededError`
(carrying spend, limit and percent) iff the recomputed state is `HALTED`. -/
def check_budget (b : BudgetCircuitBreaker) (total_cost : ℚ) :
    Except BudgetExceededInfo BudgetStatus :=
  let status := get_status b total_cost
  if status.state = BudgetState.HALTED then
    Except.error
      { current_spend := status.current_spend
        budget_limit := status.budget_limit
        percent_used := status.percent_used }
  else Except.ok status

/-- `BudgetCircuitBreaker.can_spend`: projects
`(current_spend + estimated_cost) / monthly_budget` and returns `True` iff
the projection is strictly below `halt_threshold`. -/
def can_spend (b : BudgetCircuitBreaker) (total_cost estimated_cost : ℚ) : Bool :=
  let status := get_status b total_cost
  let projected := status.current_spend + estimated_cost
  decide (projected / b.monthly_budget < b.halt_threshold)

/-- `BudgetSettings.validate_threshold` from `iety/config.py`: rejects a
threshold `v` unless `0 < v ≤ 1`.  This validator guards only the
configuration object, not `BudgetCircuitBreaker.__init__`. -/
def validate_threshold (v : ℚ) : Except String ℚ :=
  if ¬(0 < v ∧ v ≤ 1) then Except.error "Threshold must be between 0 and 1"
  else Except.ok v

/-! ## Token bucket (`iety/cost/rate_limiter.py`) -/

/-- `RateLimitConfig` (after `__post_init__`, so `burst` is concrete). -/
structure RateLimitConfig where
  name : String
  rate : ℚ
  period : ℚ
  burst : ℚ

/-- Mutable state of a `TokenBucket`: `tokens` and `last_refill`. -/
structure TokenBucket where
  tokens : ℚ
  last_refill : ℚ
deriving DecidableEq

/-- `TokenBucket._refill`: add `elapsed * (rate / period)` tokens, capped at
`burst`, and set `last_refill` to `now`. -/
def refill (config : RateLimitConfig) (bucket : TokenBucket) (now : ℚ) : TokenBucket :=
  let elapsed := now - bucket.last_refill
  let refill_amount := elapsed * (config.rate / config.period)
  { tokens := min config.burst (bucket.tokens + refill_amount), last_refill := now }

/-- `TokenBucket.try_acquire`: refill lazily, then deduct and return `True`
when enough tokens are available, else return `False` leaving the refilled
state as is. -/
def try_acquire (config : RateLimitConfig) (bucket : TokenBucket) (now tokens : ℚ) :
    Bool × TokenBucket :=
  if tokens ≤ (refill config bucket now).tokens then
    (true, { refill config bucket now with
              tokens := (refill config bucket now).tokens - tokens })
  else (false, refill config bucket now)

/-- Concrete bucket configuration used to witness the frame property
(rate 10 per second, burst 10 — the `sec` entry of `DEFAULT_RATE_LIMITS`). -/
def c7Config : RateLimitConfig := { name := "sec", rate := 10, period := 1, burst := 10 }

/-- Concrete bucket state used to witness the frame property: empty bucket
just refilled at time 0. -/
def c7Bucket : TokenBucket := { tokens := 0, last_refill := 0 }

/-! ## Token-window chunker loop (`iety/processing/chunking.py`) -/

/-- The `while token_start < total_tokens` loop of `TextChunker.chunk_text`
(the multi-chunk branch), on token indices.  Each iteration emits the window
`(token_start, token_end)` with `token_end = min (token_start + max_tokens)
total_tokens`, then sets `token_start := token_end - overlap_tokens` and
breaks when the new `token_start ≥ token_end` (the source comment claims this
prevents an infinite loop when `overlap_tokens ≥ max_tokens`).  `fuel` bounds
the number of iterations; `none` means the loop did not terminate within
`fuel` iterations. -/
def chunkLoop (max_tokens overlap_tokens total_tokens : Int) :
    Nat → Int → List (Int × Int) → Option (List (Int × Int))
  | 0, _, _ => none
  | Nat.succ fuel, token_start, chunks =>
    if token_start < total_tokens then
      let token_end := min (token_start + max_tokens) total_tokens
      let chunks2 := chunks ++ [(token_start, token_end)]
      let next_start := token_end - overlap_tokens
      if token_end ≤ next_start then some chunks2
      else chunkLoop max_tokens overlap_tokens total_tokens fuel next_start chunks2
    else some chunks

/-- Entry into the chunk loop, as `chunk_text` enters it: `token_start = 0`,
no chunks emitted yet (reached whenever `total_tokens > max_tokens`). -/
def chunk_text_loop (max_tokens overlap_tokens total_tokens : Int) (fuel : Nat) :
    Option (List (Int × Int)) :=
  chunkLoop max_tokens overlap_tokens total_tokens fuel 0 []

/-! ## Embedding dedup (`iety/processing/embeddings.py`) -/

/-- Observable state of `EmbeddingService` runs: the set of content hashes
present in `integration.embeddings`, the number of Voyage API calls made
(`_call_voyage_api`) and the number of cost-ledger entries written
(`log_embedding_cost`). -/
structure EmbedState where
  stored_hashes : List String
  provider_calls : Nat
  ledger_entries : Nat
deriving DecidableEq

/-- `EmbeddingService._check_existing`: a stored embedding with this content
hash exists. -/
def check_existing (state : EmbedState) (h : String) : Bool :=
  state.stored_hashes.contains h

/-- `EmbeddingService.embed_texts`, with the SHA-256 content hash abstracted
as `hash`.  Each text whose hash already has a stored embedding is answered
from the store; the remaining texts go out in ONE batched provider call
followed by ONE ledger entry — or none at all when every text was cached.
The returned list gives, per input text in order, its content hash and
whether it was served from the store. -/
def embed_texts (hash : String → String) (state : EmbedState) (texts : List String)
    (skip_existing : Bool) : EmbedState × List (String × Bool) :=
  let results := texts.map fun t => (hash t, skip_existing && check_existing state (hash t))
  let texts_to_embed := texts.filter fun t => !(skip_existing && check_existing state (hash t))
  if texts_to_embed.isEmpty then (state, results)
  else
    ({ state with
        provider_calls := state.provider_calls + 1,
        ledger_entries := state.ledger_entries + 1 },
      results)

/-- `EmbeddingService.embed_and_store`, with the tiktoken-based chunker
abstracted as `chunk_fn`: chunk the text, embed the chunks through
`embed_texts` (dedup-aware, `skip_existing` defaulting to true), then upsert
one embedding row per chunk — after which each chunk's content hash is
stored. -/
def embed_and_store (hash : String → String) (chunk_fn : String → List String)
    (state : EmbedState) (text : String) : EmbedState :=
  let chunks := chunk_fn text
  if chunks.isEmpty then state
  else
    let after := (embed_texts hash state chunks true).1
    { after with stored_hashes := chunks.map hash ++ after.stored_hashes }

/-- C4 witness hash function (any function of the text works; only equality
of hashes on equal texts matters for dedup). -/
def c4Hash (t : String) : String := t

/-- C4 witness chunker: the text fits in a single chunk. -/
def c4Chunks (t : String) : List String := [t]

/-- C4 witness initial state: empty embedding store, no calls, no costs. -/
def c4State : EmbedState :=
  { stored_hashes := [], provider_calls := 0, ledger_entries := 0 }

/-! ## Reciprocal Rank Fusion (`iety/processing/search.py`) -/

/-- `HybridSearch._rrf_score`: `1.0 / (RRF_K + rank)` with `RRF_K = 60` and
1-indexed ranks. -/
def rrf_score (rank : Nat) : ℚ := 1 / (60 + (rank : ℚ))

/-- Rank helper: 0-based position of the first occurrence of `id` in a
ranked result list (the list length if absent; only used under membership). -/
def posIn {α : Type} [DecidableEq α] : List α → α → Nat
  | [], _ => 0
  | x :: xs, id => if x = id then 0 else posIn xs id + 1

/-- The vector-result pass of `hybrid_search`: insert `(id, rrf, 0)` into the
insertion-ordered score map, or overwrite the `vector_rrf` component of an
existing entry.  Entries are `(id, vector_rrf, keyword_rrf)`. -/
def updateVector {α : Type} [DecidableEq α] (scores : List (α × ℚ × ℚ)) (id : α)
    (rrf : ℚ) : List (α × ℚ × ℚ) :=
  if scores.any fun e => decide (e.1 = id) then
    scores.map fun e => if e.1 = id then (e.1, rrf, e.2.2) else e
  else scores ++ [(id, rrf, 0)]

/-- The keyword-result pass of `hybrid_search`: insert `(id, 0, rrf)`, or
overwrite the `keyword_rrf` component of an existing entry. -/
def updateKeyword {α : Type} [DecidableEq α] (scores : List (α × ℚ × ℚ)) (id : α)
    (rrf : ℚ) : List (α × ℚ × ℚ) :=
  if scores.any fun e => decide (e.1 = id) then
    scores.map fun e => if e.1 = id then (e.1, e.2.1, rrf) else e
  else scores ++ [(id, 0, rrf)]

/-- The `for rank, result in enumerate(vector_results, 1)` loop: fold the
vector result ids (with `rrf = _rrf_score(rank) * vector_weight`) into an
empty score map. -/
def processVector {α : Type} [DecidableEq α] (vector_weight : ℚ) (ids : List α) :
    List (α × ℚ × ℚ) :=
  ids.enum.foldl (fun sc p => updateVector sc p.2 (rrf_score (p.1 + 1) * vector_weight)) []

/-- The full score-map construction of `hybrid_search`: the vector pass
followed by the keyword pass. -/
def hybridEntries {α : Type} [DecidableEq α] (vector_weight keyword_weight : ℚ)
    (vector_ids keyword_ids : List α) : List (α × ℚ × ℚ) :=
  keyword_ids.enum.foldl
    (fun sc p => updateKeyword sc p.2 (rrf_score (p.1 + 1) * keyword_weight))
    (processVector vector_weight vector_ids)

/-- Final fused scores: `result.score = vector_rrf + keyword_rrf` per entry,
in insertion order. -/
def fusedScores {α : Type} [DecidableEq α] (vector_weight keyword_weight : ℚ)
    (vector_ids keyword_ids : List α) : List (α × ℚ) :=
  (hybridEntries vector_weight keyword_weight vector_ids keyword_ids).map
    fun e => (e.1, e.2.1 + e.2.2)

/-- Lookup of an id's fused score in the score list. -/
def entryScore {α : Type} [DecidableEq α] (scored : List (α × ℚ)) (id : α) : Option ℚ :=
  (scored.find? fun e => decide (e.1 = id)).map fun e => e.2

/-- The tail of `hybrid_search`: sort the fused entries by score descending
(Python `list.sort` is stable; `mergeSort` is the stable model) and truncate
to `limit`. -/
def hybrid_search_results {α : Type} [DecidableEq α] (vector_weight keyword_weight : ℚ)
    (vector_ids keyword_ids : List α) (limit : Nat) : List (α × ℚ) :=
  ((fusedScores vector_weight keyword_weight vector_ids keyword_ids).mergeSort
    fun a b => decide (b.2 ≤ a.2)).take limit

/-! ## Ingestion pipeline (`iety/ingestion/base.py`) -/

/-- `PipelineStats` (timestamps omitted; no claim concerns them). -/
structure PipelineStats where
  records_fetched : Nat := 0
  records_transformed : Nat := 0
  records_upserted : Nat := 0
  records_skipped : Nat := 0
  errors : Nat := 0
  batches_processed : Nat := 0
  last_error : Option String := none
deriving DecidableEq

/-- The persisted `integration.sync_state` row for one pipeline name
(`last_sync_at`/`updated_at`/`last_error_at` timestamps omitted). -/
structure SyncRow (C : Type) where
  checkpoint : C
  records_processed : Nat
  status : String
  last_error : Option String
deriving DecidableEq

/-- `BasePipeline.save_checkpoint`: the `INSERT ... ON CONFLICT (pipeline_name)
DO UPDATE` statement.  On insert the row starts at `records`; on conflict it
adds `records` (the caller passes `self._stats.records_upserted`) to the
existing `records_processed`, overwrites `checkpoint` and `status`, and
`COALESCE`s the error message. -/
def save_checkpoint {C : Type} (db : Option (SyncRow C)) (checkpoint : C)
    (records : Nat) (status : String) (error : Option String) : SyncRow C :=
  match db with
  | none =>
    { checkpoint := checkpoint, records_processed := records,
      status := status, last_error := error }
  | some row =>
    { checkpoint := checkpoint, records_processed := row.records_processed + records,
      status := status, last_error := error.orElse fun _ => row.last_error }

/-- Result of the per-batch transform loop: collected rows plus the three
counter increments. -/
structure TransformAcc (Row : Type) where
  rows : List Row
  transformed : Nat
  skipped : Nat
  errors : Nat

/-- The per-record transform loop of `BasePipeline.run`: `transform` returning
a row appends it and bumps `records_transformed`; returning `None` bumps
`records_skipped`; raising bumps `errors`; every record is processed. -/
def transformBatch {T Row : Type} (transform : T → Except String (Option Row)) :
    List T → TransformAcc Row
  | [] => { rows := [], transformed := 0, skipped := 0, errors := 0 }
  | r :: rest =>
    let acc := transformBatch transform rest
    match transform r with
    | Except.ok (some row) =>
      { rows := row :: acc.rows, transformed := acc.transformed + 1,
        skipped := acc.skipped, errors := acc.errors }
    | Except.ok none =>
      { rows := acc.rows, transformed := acc.transformed,
        skipped := acc.skipped + 1, errors := acc.errors }
    | Except.error _ =>
      { rows := acc.rows, transformed := acc.transformed,
        skipped := acc.skipped, errors := acc.errors + 1 }

/-- Whether `transform` succeeds with a row on record `r`. -/
def transformOk {T Row : Type} (transform : T → Except String (Option Row)) (r : T) : Bool :=
  match transform r with
  | Except.ok (some _) => true
  | _ => false

/-- Whether `transform` skips record `r` (returns `None`). -/
def transformSkip {T Row : Type} (transform : T → Except String (Option Row)) (r : T) : Bool :=
  match transform r with
  | Except.ok none => true
  | _ => false

/-- Whether `transform` raises on record `r`. -/
def transformErr {T Row : Type} (transform : T → Except String (Option Row)) (r : T) : Bool :=
  match transform r with
  | Except.error _ => true
  | _ => false

/-- The row produced for record `r`, if any. -/
def transformRow {T Row : Type} (transform : T → Except String (Option Row)) (r : T) :
    Option Row :=
  match transform r with
  | Except.ok (some row) => some row
  | _ => none

/-- Outcome of a pipeline run.  `completed` is the normal return,
`failed msg` models the re-raised upsert exception; both carry the final
stats, the persisted `sync_state` row and the trace of `records` amounts
passed to each `save_checkpoint` call.  `fuelOut` means the run did not
finish within the modelled number of iterations. -/
inductive RunOutcome (C : Type) where
  | completed (stats : PipelineStats) (db : Option (SyncRow C)) (saves : List Nat)
  | failed (message : String) (stats : PipelineStats) (db : Option (SyncRow C))
      (saves : List Nat)
  | fuelOut
deriving DecidableEq

/-- The `max_batches is not None and batch_count >= max_batches` loop guard. -/
def limitReached (max_batches : Option Nat) (batch_count : Nat) : Bool :=
  match max_batches with
  | some m => decide (m ≤ batch_count)
  | none => false

/-- The post-loop epilogue of `BasePipeline.run`: unless in dry-run mode,
persist the final checkpoint with status `"completed"`. -/
def finishRun {C : Type} (dry_run : Bool) (checkpoint : C) (stats : PipelineStats)
    (db : Option (SyncRow C)) (saves : List Nat) : RunOutcome C :=
  if dry_run then RunOutcome.completed stats db saves
  else
    RunOutcome.completed stats
      (some (save_checkpoint db checkpoint stats.records_upserted "completed" none))
      (saves ++ [stats.records_upserted])

/-- The `while True` loop of `BasePipeline.run`.  Each iteration: stop when
`max_batches` is reached; fetch `(records, new_checkpoint)`; stop when
`records` is empty; transform each record in isolation; if any rows were
produced and not in dry-run mode, upsert — on an upsert exception, persist
the PRE-BATCH checkpoint with status `"error"` and the message, then re-raise
(`failed`); otherwise advance the checkpoint to `new_checkpoint`, bump
`batches_processed`, and persist with status `"running"` every 10 batches. -/
def runLoop {T Row C : Type} (fetch_batch : C → List T × C)
    (transform : T → Except String (Option Row))
    (upsert : List Row → Except String Nat)
    (max_batches : Option Nat) (dry_run : Bool) :
    Nat → C → Nat → PipelineStats → Option (SyncRow C) → List Nat → RunOutcome C
  | 0, _, _, _, _, _ => RunOutcome.fuelOut
  | Nat.succ fuel, checkpoint, batch_count, stats, db, saves =>
    if limitReached max_batches batch_count then
      finishRun dry_run checkpoint stats db saves
    else
      let records := (fetch_batch checkpoint).1
      let new_checkpoint := (fetch_batch checkpoint).2
      let stats1 := { stats with records_fetched := stats.records_fetched + records.length }
      if records.isEmpty then
        finishRun dry_run checkpoint stats1 db saves
      else
        let acc := transformBatch transform records
        let stats2 := { stats1 with
          records_transformed := stats1.records_transformed + acc.transformed,
          records_skipped := stats1.records_skipped + acc.skipped,
          errors := stats1.errors + acc.errors }
        if acc.rows.isEmpty = false ∧ dry_run = false then
          match upsert acc.rows with
          | Except.error msg =>
            let stats3 := { stats2 with errors := stats2.errors + 1, last_error := some msg }
            RunOutcome.failed msg stats3
              (some (save_checkpoint db checkpoint stats3.records_upserted "error" (some msg)))
              (saves ++ [stats3.records_upserted])
          | Except.ok affected =>
            let stats3 := { stats2 with records_upserted := stats2.records_upserted + affected }
            let stats4 := { stats3 with batches_processed := batch_count + 1 }
            if (batch_count + 1) % 10 = 0 ∧ dry_run = false then
              runLoop fetch_batch transform upsert max_batches dry_run fuel
                new_checkpoint (batch_count + 1) stats4
                (some (save_checkpoint db new_checkpoint stats4.records_upserted "running" none))
                (saves ++ [stats4.records_upserted])
            else
              runLoop fetch_batch transform upsert max_batches dry_run fuel
                new_checkpoint (batch_count + 1) stats4 db saves
        else
          let stats4 := { stats2 with batches_processed := batch_count + 1 }
          if (batch_count + 1) % 10 = 0 ∧ dry_run = false then
            runLoop fetch_batch transform upsert max_batches dry_run fuel
              new_checkpoint (batch_count + 1) stats4
              (some (save_checkpoint db new_checkpoint stats4.records_upserted "running" none))
              (saves ++ [stats4.records_upserted])
          else
            runLoop fetch_batch transform upsert max_batches dry_run fuel
              new_checkpoint (batch_count + 1) stats4 db saves

/-- `BasePipeline.run`: fresh stats, batch counter 0, no saves yet. -/
def run {T Row C : Type} (fetch_batch : C → List T × C)
    (transform : T → Except String (Option Row))
    (upsert : List Row → Except String Nat)
    (max_batches : Option Nat) (dry_run : Bool)
    (fuel : Nat) (checkpoint : C) (db : Option (SyncRow C)) : RunOutcome C :=
  runLoop fetch_batch transform upsert max_batches dry_run fuel checkpoint 0 {} db []

/-- `records_processed` of the persisted `sync_state` row, 0 when the row
does not exist yet. -/
def dbRecordsProcessed {C : Type} (db : Option (SyncRow C)) : Nat :=
  match db with
  | none => 0
  | some row => row.records_processed

/-- Fake source for the C2 end-to-end scenario: five batches of three award
records each, paginated by page number; record `3p` of each batch is the
deliberately malformed one. -/
def c2Fetch (page : Nat) : List Nat × Nat :=
  if page < 5 then ([3 * page, 3 * page + 1, 3 * page + 2], page + 1) else ([], page)

/-- Fake transform for the C2 scenario: returns `None` (skip) exactly on the
malformed record of each batch, a row otherwise, and never raises. -/
def c2Transform (r : Nat) : Except String (Option Nat) :=
  Except.ok (if r % 3 = 0 then none else some r)

/-- Fake upsert for the C2 scenario: reports all rows affected. -/
def c2Upsert (rows : List Nat) : Except String Nat :=
  Except.ok rows.length

/-- Fake source for the C1 witness: single-record batches forever. -/
def c1Fetch (page : Nat) : List Nat × Nat :=
  ([page], page + 1)

/-- Fake transform for the C1 witness: always produces a row. -/
def c1Transform (r : Nat) : Except String (Option Nat) :=
  Except.ok (some r)

/-- Fake upsert for the C1 witness: always raises. -/
def c1Upsert (_ : List Nat) : Except String Nat :=
  Except.error "boom"

/-- Fake source for the C10 witness: twelve single-record batches, then
exhaustion, so the run performs one periodic save (batch 10) plus the final
save. -/
def c10Fetch (page : Nat) : List Nat × Nat :=
  if page < 12 then ([page], page + 1) else ([], page)

/-- C10 witness transform: every record yields a row. -/
def c10Transform (r : Nat) : Except String (Option Nat) :=
  Except.ok (some r)

/-- C10 witness upsert: reports all rows affected. -/
def c10Upsert (rows : List Nat) : Except String Nat :=
  Except.ok rows.length

/-- Final stats of the C10 witness run: 12 batches of one record each, all
upserted. -/
def c10Stats : PipelineStats :=
  { records_fetched := 12, records_transformed := 12, records_upserted := 12,
    records_skipped := 0, errors := 0, batches_processed := 12, last_error := none }

/-- Final `sync_state` row of the C10 witness run: the periodic save at
batch 10 added 10, the final save added 12 more. -/
def c10Row : SyncRow Nat :=
  { checkpoint := 12, records_processed := 22, status := "completed", last_error := none }

/-! ## Theorems -/

/-- C3: the circuit breaker state computed by `get_status` is a pure function
of the ratio `spend / budget_limit`: `NORMAL` iff the ratio is below
`warning_threshold`, `WARNING` iff it is in `[warning_threshold,
halt_threshold)`, `HALTED` iff it is at or above `halt_threshold`; with the
default configuration (limit 50, warning 0.90, halt 0.95), spend 44.99 is
`NORMAL`, 45.00 is `WARNING` and 47.50 is `HALTED`. -/
theorem budget_state_thresholds :
    (∀ (b : BudgetCircuitBreaker) (spend : ℚ), 0 < b.monthly_budget →
      b.warning_threshold ≤ b.halt_threshold →
      (((get_status b spend).state = BudgetState.NORMAL ↔
          spend / b.monthly_budget < b.warning_threshold) ∧
        ((get_status b spend).state = BudgetState.WARNING ↔
          b.warning_threshold ≤ spend / b.monthly_budget ∧
            spend / b.monthly_budget < b.halt_threshold) ∧
        ((get_status b spend).state = BudgetState.HALTED ↔
          b.halt_threshold ≤ spend / b.monthly_budget))) ∧
    (get_status defaultBreaker (4499 / 100)).state = BudgetState.NORMAL ∧
    (get_status defaultBreaker 45).state = BudgetState.WARNING ∧
    (get_status defaultBreaker (95 / 2)).state = BudgetState.HALTED := by
  refine ⟨?_, ?_, ?_, ?_⟩
  · intro b spend hpos hwh
    have hne : b.monthly_budget ≠ 0 := ne_of_gt hpos
    simp only [get_status, budget_percent_used, if_pos hne]
    split_ifs with h1 h2
    · exact ⟨iff_of_false (by decide) (not_lt.mpr (le_trans hwh h1)),
        iff_of_false (by decide) (fun hc => absurd hc.2 (not_lt.mpr h1)),
        iff_of_true rfl h1⟩
    · exact ⟨iff_of_false (by decide) (not_lt.mpr h2),
        iff_of_true rfl ⟨h2, not_le.mp h1⟩,
        iff_of_false (by decide) h1⟩
    · exact ⟨iff_of_true rfl (not_le.mp h2),
        iff_of_false (by decide) (fun hc => absurd hc.1 h2),
        iff_of_false (by decide) h1⟩
  · simp only [get_status, budget_percent_used, defaultBreaker, BudgetCircuitBreaker.init]
    norm_num
  · simp only [get_status, budget_percent_used, defaultBreaker, BudgetCircuitBreaker.init]
    norm_num
  · simp only [get_status, budget_percent_used, defaultBreaker, BudgetCircuitBreaker.init]
    norm_num

/-- C3 witness: the threshold characterization applied to the default
breaker at spend 44.99. -/
theorem budget_state_thresholds_witness :
    0 < defaultBreaker.monthly_budget ∧
    defaultBreaker.warning_threshold ≤ defaultBreaker.halt_threshold ∧
    ((get_status defaultBreaker (4499 / 100)).state = BudgetState.NORMAL ↔
      (4499 / 100 : ℚ) / defaultBreaker.monthly_budget < defaultBreaker.warning_threshold) := by
  have h1 : 0 < defaultBreaker.monthly_budget := by
    simp only [defaultBreaker, BudgetCircuitBreaker.init]; norm_num
  have h2 : defaultBreaker.warning_threshold ≤ defaultBreaker.halt_threshold := by
    simp only [defaultBreaker, BudgetCircuitBreaker.init]; norm_num
  exact ⟨h1, h2, (budget_state_thresholds.1 defaultBreaker (4499 / 100) h1 h2).1⟩

/-- C5: `can_spend c` returns `True` iff the projected ratio
`(spend + c) / budget_limit` is strictly below `halt_threshold` (including
negative `c`); with limit 50 and spend 48, `can_spend 1.00` is `False`,
`can_spend (-1.00)` is `True`, and `check_budget` raises carrying
`percent_used = 0.96`. -/
theorem can_spend_projection :
    (∀ (b : BudgetCircuitBreaker) (total_cost estimated_cost : ℚ),
      0 < b.monthly_budget →
      (can_spend b total_cost estimated_cost = true ↔
        (total_cost + estimated_cost) / b.monthly_budget < b.halt_threshold)) ∧
    can_spend defaultBreaker 48 1 = false ∧
    can_spend defaultBreaker 48 (-1) = true ∧
    check_budget defaultBreaker 48 =
      Except.error { current_spend := 48, budget_limit := 50, percent_used := 96 / 100 } := by
  refine ⟨?_, ?_, ?_, ?_⟩
  · intro b total_cost estimated_cost _
    simp [can_spend, get_status]
  · simp only [can_spend, get_status, defaultBreaker, BudgetCircuitBreaker.init,
      decide_eq_false_iff_not, not_lt]
    norm_num
  · simp only [can_spend, get_status, defaultBreaker, BudgetCircuitBreaker.init,
      decide_eq_true_eq]
    norm_num
  · simp only [check_budget, get_status, budget_percent_used, defaultBreaker,
      BudgetCircuitBreaker.init]
    norm_num

/-- C5 witness: the projection characterization applied at the scenario
breaker and cost. -/
theorem can_spend_projection_witness :
    0 < defaultBreaker.monthly_budget ∧
    (can_spend defaultBreaker 48 1 = true ↔
      ((48 : ℚ) + 1) / defaultBreaker.monthly_budget < defaultBreaker.halt_threshold) := by
  have h : 0 < defaultBreaker.monthly_budget := by
    simp only [defaultBreaker, BudgetCircuitBreaker.init]; norm_num
  exact ⟨h, can_spend_projection.1 defaultBreaker 48 1 h⟩

/-- C9 counterexample: constructing a `BudgetCircuitBreaker` with
`warning_threshold = 1.5`, which lies outside `(0, 1]`, does not fail: the
constructor returns a normally-initialized breaker that silently stores the
invalid threshold. -/
theorem breaker_validation_counterexample :
    BudgetCircuitBreaker.init 50 (3 / 2) (19 / 20) =
      { monthly_budget := 50, warning_threshold := 3 / 2, halt_threshold := 19 / 20,
        state := BudgetState.NORMAL } ∧
    ¬(0 < (3 / 2 : ℚ) ∧ (3 / 2 : ℚ) ≤ 1) := by
  refine ⟨rfl, ?_⟩
  intro h
  have := h.2
  norm_num at this

/-- C9 amended: `BudgetCircuitBreaker.__init__` accepts any threshold value
without validation (storing it and starting in `NORMAL`); the `(0, 1]`
validation exists only in the configuration layer
(`BudgetSettings.validate_threshold`), which accepts exactly the values in
`(0, 1]` and rejects all others with a configuration error. -/
theorem breaker_init_accepts_any_threshold :
    (∀ budget wt ht : ℚ,
      (BudgetCircuitBreaker.init budget wt ht).warning_threshold = wt ∧
      (BudgetCircuitBreaker.init budget wt ht).halt_threshold = ht ∧
      (BudgetCircuitBreaker.init budget wt ht).state = BudgetState.NORMAL) ∧
    (∀ v : ℚ, validate_threshold v = Except.ok v ↔ (0 < v ∧ v ≤ 1)) ∧
    (∀ v : ℚ, ¬(0 < v ∧ v ≤ 1) →
      validate_threshold v = Except.error "Threshold must be between 0 and 1") := by
  refine ⟨fun budget wt ht => ⟨rfl, rfl, rfl⟩, ?_, ?_⟩
  · intro v
    constructor
    · intro h
      by_contra hv
      simp only [validate_threshold, if_pos hv] at h
      exact Except.noConfusion h
    · intro hv
      simp only [validate_threshold, if_neg (not_not.mpr hv)]
  · intro v hv
    simp only [validate_threshold, if_pos hv]

/-- C9 witness: the configuration validator rejects 1.5. -/
theorem breaker_init_accepts_any_threshold_witness :
    ¬(0 < (3 / 2 : ℚ) ∧ (3 / 2 : ℚ) ≤ 1) ∧
    validate_threshold (3 / 2) = Except.error "Threshold must be between 0 and 1" := by
  have h : ¬(0 < (3 / 2 : ℚ) ∧ (3 / 2 : ℚ) ≤ 1) := by
    intro h; have := h.2; norm_num at this
  exact ⟨h, breaker_init_accepts_any_threshold.2.2 (3 / 2) h⟩

/-- C7: `try_acquire n` first refills lazily as of the call time; if the
refilled token count is below `n` it returns `False` and leaves the refilled
state untouched (no deduction, `last_refill` as set by the lazy refill); if
it is at least `n` it deducts `n` and returns `True`. -/
theorem try_acquire_frame (config : RateLimitConfig) (bucket : TokenBucket) (now n : ℚ) :
    ((refill config bucket now).tokens < n →
      try_acquire config bucket now n = (false, refill config bucket now)) ∧
    (n ≤ (refill config bucket now).tokens →
      try_acquire config bucket now n =
        (true, { refill config bucket now with
                  tokens := (refill config bucket now).tokens - n })) := by
  constructor
  · intro h
    simp only [try_acquire, if_neg (not_le.mpr h)]
  · intro h
    simp only [try_acquire, if_pos h]

/-- C7 witness: an empty bucket refuses a request for 5 tokens and is left
in exactly the refilled state. -/
theorem try_acquire_frame_witness :
    (refill c7Config c7Bucket 0).tokens < 5 ∧
    try_acquire c7Config c7Bucket 0 5 = (false, refill c7Config c7Bucket 0) := by
  have h : (refill c7Config c7Bucket 0).tokens < 5 := by
    simp only [refill, c7Config, c7Bucket]
    norm_num
  exact ⟨h, (try_acquire_frame c7Config c7Bucket 0 5).1 h⟩

/-- Helper for C8: with `max_tokens = 2`, `overlap_tokens = 2` and a 3-token
text, the loop state returns to `token_start = 0` after every iteration, so
no amount of fuel suffices. -/
theorem chunkLoop_stall (fuel : Nat) :
    ∀ chunks : List (Int × Int), chunkLoop 2 2 3 fuel 0 chunks = none := by
  induction fuel with
  | zero => intro chunks; rfl
  | succ n ih =>
    intro chunks
    have h1 : ((0 : Int) < 3) := by norm_num
    have h2 : min ((0 : Int) + 2) 3 = 2 := by norm_num
    simp only [chunkLoop, if_pos h1, h2]
    have h3 : ¬((2 : Int) ≤ 2 - 2) := by norm_num
    simp only [if_neg h3]
    have h4 : (2 : Int) - 2 = 0 := by norm_num
    rw [h4]
    exact ih _

/-- Helper: `finishRun` always returns `completed`, never `failed`. -/
theorem finishRun_ne_failed {C : Type} (dry_run : Bool) (checkpoint : C)
    (stats : PipelineStats) (db : Option (SyncRow C)) (saves : List Nat)
    (msg : String) (st : PipelineStats) (db2 : Option (SyncRow C)) (saves2 : List Nat) :
    finishRun dry_run checkpoint stats db saves ≠ RunOutcome.failed msg st db2 saves2 := by
  unfold finishRun
  split <;> intro h <;> exact RunOutcome.noConfusion h

/-- Helper: the row written by `save_checkpoint` carries the requested status. -/
theorem save_checkpoint_status {C : Type} (db : Option (SyncRow C)) (checkpoint : C)
    (records : Nat) (status : String) (error : Option String) :
    (save_checkpoint db checkpoint records status error).status = status := by
  cases db <;> rfl

/-- Helper: the row written by `save_checkpoint` carries the requested
checkpoint. -/
theorem save_checkpoint_checkpoint {C : Type} (db : Option (SyncRow C)) (checkpoint : C)
    (records : Nat) (status : String) (error : Option String) :
    (save_checkpoint db checkpoint records status error).checkpoint = checkpoint := by
  cases db <;> rfl

/-- Helper: with a non-null error message, `COALESCE` keeps the new message. -/
theorem save_checkpoint_some_error {C : Type} (db : Option (SyncRow C)) (checkpoint : C)
    (records : Nat) (status : String) (msg : String) :
    (save_checkpoint db checkpoint records status (some msg)).last_error = some msg := by
  cases db <;> rfl

/-- Helper: each `save_checkpoint` adds exactly `records` to the persisted
`records_processed` (starting from 0 on insert). -/
theorem save_checkpoint_records {C : Type} (db : Option (SyncRow C)) (checkpoint : C)
    (records : Nat) (status : String) (error : Option String) :
    (save_checkpoint db checkpoint records status error).records_processed =
      dbRecordsProcessed db + records := by
  cases db <;> simp [save_checkpoint, dbRecordsProcessed]

/-- C1: whenever a run fails (the upsert raised and the exception was
re-raised to the caller), the persisted `sync_state` row has status
`"error"` and carries the exception message, and its checkpoint is the
pre-batch checkpoint: fetching from the persisted checkpoint re-yields
exactly the non-empty batch whose transformed rows make `upsert` raise that
message — the checkpoint was not advanced to the adapter-returned
`new_checkpoint`. -/
theorem upsert_failure_preserves_checkpoint {T Row C : Type}
    (fetch_batch : C → List T × C) (transform : T → Except String (Option Row))
    (upsert : List Row → Except String Nat) (max_batches : Option Nat) (dry_run : Bool) :
    ∀ (fuel : Nat) (checkpoint : C) (batch_count : Nat) (stats : PipelineStats)
      (db : Option (SyncRow C)) (saves : List Nat) (msg : String) (st : PipelineStats)
      (db2 : Option (SyncRow C)) (saves2 : List Nat),
      runLoop fetch_batch transform upsert max_batches dry_run fuel checkpoint batch_count
          stats db saves = RunOutcome.failed msg st db2 saves2 →
      ∃ row : SyncRow C, db2 = some row ∧ row.status = "error" ∧
        row.last_error = some msg ∧ dry_run = false ∧
        (fetch_batch row.checkpoint).1 ≠ [] ∧
        (transformBatch transform (fetch_batch row.checkpoint).1).rows ≠ [] ∧
        upsert (transformBatch transform (fetch_batch row.checkpoint).1).rows =
          Except.error msg := by
  intro fuel
  induction fuel with
  | zero =>
    intro checkpoint bc stats db saves msg st db2 saves2 h
    exact RunOutcome.noConfusion h
  | succ n ih =>
    intro checkpoint bc stats db saves msg st db2 saves2 h
    simp only [runLoop] at h
    split at h
    · exact absurd h (finishRun_ne_failed _ _ _ _ _ _ _ _ _)
    · split at h
      · exact absurd h (finishRun_ne_failed _ _ _ _ _ _ _ _ _)
      · rename_i hfetch
        split at h
        · rename_i hcond
          split at h
          · rename_i m heq
            injection h with h1 h2 h3 h4
            subst h1
            subst h2
            subst h3
            subst h4
            refine ⟨save_checkpoint db checkpoint _ "error" (some m), rfl,
              save_checkpoint_status _ _ _ _ _, save_checkpoint_some_error _ _ _ _ _,
              hcond.2, ?_, ?_, ?_⟩
            · rw [save_checkpoint_checkpoint]
              intro hnil
              rw [hnil] at hfetch
              exact hfetch rfl
            · rw [save_checkpoint_checkpoint]
              intro hnil
              rw [hnil] at hcond
              exact Bool.noConfusion hcond.1
            · rw [save_checkpoint_checkpoint]
              exact heq
          · rename_i k heq
            split at h
            · exact ih _ _ _ _ _ _ _ _ _ h
            · exact ih _ _ _ _ _ _ _ _ _ h
        · split at h
          · exact ih _ _ _ _ _ _ _ _ _ h
          · exact ih _ _ _ _ _ _ _ _ _ h

/-- C1 witness: a pipeline whose upsert always raises `"boom"` fails on the
first batch with the pre-batch checkpoint 0 persisted under status
`"error"`. -/
theorem upsert_failure_preserves_checkpoint_witness :
    ∃ row : SyncRow Nat,
      (some { checkpoint := 0, records_processed := 0, status := "error",
              last_error := some "boom" } : Option (SyncRow Nat)) = some row ∧
      row.status = "error" ∧ row.last_error = some "boom" ∧ false = false ∧
      (c1Fetch row.checkpoint).1 ≠ [] ∧
      (transformBatch c1Transform (c1Fetch row.checkpoint).1).rows ≠ [] ∧
      c1Upsert (transformBatch c1Transform (c1Fetch row.checkpoint).1).rows =
        Except.error "boom" :=
  upsert_failure_preserves_checkpoint c1Fetch c1Transform c1Upsert none false
    3 0 0 {} none [] "boom"
    { records_fetched := 1, records_transformed := 1, records_upserted := 0,
      records_skipped := 0, errors := 1, batches_processed := 0, last_error := some "boom" }
    (some { checkpoint := 0, records_processed := 0, status := "error",
            last_error := some "boom" })
    [0] (by rfl)

/-- Helper for C2: the transform loop treats every record in isolation — the
counters count exactly the succeeding / skipping / raising records, the rows
are the `filterMap` of successes, and every record is accounted for (the
loop never aborts early). -/
theorem transformBatch_spec {T Row : Type} (transform : T → Except String (Option Row))
    (records : List T) :
    (transformBatch transform records).transformed = records.countP (transformOk transform) ∧
    (transformBatch transform records).skipped = records.countP (transformSkip transform) ∧
    (transformBatch transform records).errors = records.countP (transformErr transform) ∧
    (transformBatch transform records).rows = records.filterMap (transformRow transform) ∧
    (transformBatch transform records).transformed + (transformBatch transform records).skipped +
      (transformBatch transform records).errors = records.length := by
  induction records with
  | nil => simp [transformBatch]
  | cons r rest ih =>
    obtain ⟨ih1, ih2, ih3, ih4, ih5⟩ := ih
    cases h : transform r with
    | ok o =>
      cases o with
      | some row =>
        refine ⟨?_, ?_, ?_, ?_, ?_⟩ <;>
          simp [transformBatch, h, transformOk, transformSkip, transformErr, transformRow,
            List.countP_cons, ih1, ih2, ih3, ih4] <;> omega
      | none =>
        refine ⟨?_, ?_, ?_, ?_, ?_⟩ <;>
          simp [transformBatch, h, transformOk, transformSkip, transformErr, transformRow,
            List.countP_cons, ih1, ih2, ih3, ih4] <;> omega
    | error e =>
      refine ⟨?_, ?_, ?_, ?_, ?_⟩ <;>
        simp [transformBatch, h, transformOk, transformSkip, transformErr, transformRow,
          List.countP_cons, ih1, ih2, ih3, ih4] <;> omega

/-- C2: records are transformed in isolation — a skip (`None`) increments
only the skipped counter, a raising transform increments only the errors
counter and the loop continues over the remaining records (all records are
accounted for); and the end-to-end scenario: `max_batches = 2` over batches
of 3 records with exactly one malformed record each ends with stats
fetched=6, transformed=4, skipped=2, upserted=4, errors=0,
batches_processed=2 and persisted status `"completed"`. -/
theorem per_record_isolation_and_scenario :
    (∀ (T Row : Type) (transform : T → Except String (Option Row)) (records : List T),
      (transformBatch transform records).transformed =
        records.countP (transformOk transform) ∧
      (transformBatch transform records).skipped =
        records.countP (transformSkip transform) ∧
      (transformBatch transform records).errors =
        records.countP (transformErr transform) ∧
      (transformBatch transform records).rows =
        records.filterMap (transformRow transform) ∧
      (transformBatch transform records).transformed +
        (transformBatch transform records).skipped +
        (transformBatch transform records).errors = records.length) ∧
    run c2Fetch c2Transform c2Upsert (some 2) false 10 0 none =
      RunOutcome.completed
        { records_fetched := 6, records_transformed := 4, records_upserted := 4,
          records_skipped := 2, errors := 0, batches_processed := 2, last_error := none }
        (some { checkpoint := 2, records_processed := 4, status := "completed",
                last_error := none })
        [4] :=
  ⟨fun _ _ transform records => transformBatch_spec transform records, by rfl⟩

/-- Helper: dropping the head of a non-empty list keeps its last element. -/
theorem getLast?_cons_of_ne_nil {a : Nat} {l : List Nat} (h : l ≠ []) :
    (a :: l).getLast? = l.getLast? := by
  cases l with
  | nil => exact absurd rfl h
  | cons b t => rfl

/-- Helper for C10: a completed non-dry run appends to the save trace the
`records` amount of every `save_checkpoint` call it performed, the persisted
`records_processed` grows by exactly the sum of that trace, and the final
(last) save's amount is the run's final `records_upserted`. -/
theorem runLoop_completed_trace {T Row C : Type} (fetch_batch : C → List T × C)
    (transform : T → Except String (Option Row)) (upsert : List Row → Except String Nat)
    (max_batches : Option Nat) (dry_run : Bool) :
    ∀ (fuel : Nat) (checkpoint : C) (batch_count : Nat) (stats : PipelineStats)
      (db : Option (SyncRow C)) (saves : List Nat) (st : PipelineStats)
      (db2 : Option (SyncRow C)) (saves2 : List Nat),
      runLoop fetch_batch transform upsert max_batches dry_run fuel checkpoint batch_count
          stats db saves = RunOutcome.completed st db2 saves2 →
      ∃ news : List Nat, saves2 = saves ++ news ∧
        dbRecordsProcessed db2 = dbRecordsProcessed db + news.sum ∧
        (dry_run = false → news.getLast? = some st.records_upserted) ∧
        (dry_run = true → news = [] ∧ db2 = db) := by
  intro fuel
  induction fuel with
  | zero =>
    intro checkpoint bc stats db saves st db2 saves2 h
    exact RunOutcome.noConfusion h
  | succ n ih =>
    intro checkpoint bc stats db saves st db2 saves2 h
    simp only [runLoop] at h
    split at h
    · unfold finishRun at h
      split at h
      · rename_i hdry
        injection h with h1 h2 h3
        subst h2
        subst h3
        exact ⟨[], by simp, by simp, fun hf => absurd hdry (by simp [hf]),
          fun _ => ⟨rfl, rfl⟩⟩
      · rename_i hdry
        injection h with h1 h2 h3
        subst h1
        subst h2
        subst h3
        refine ⟨[stats.records_upserted], rfl, ?_, fun _ => rfl,
          fun ht => absurd ht hdry⟩
        simp [save_checkpoint_records, dbRecordsProcessed]
    · split at h
      · unfold finishRun at h
        split at h
        · rename_i hdry
          injection h with h1 h2 h3
          subst h2
          subst h3
          exact ⟨[], by simp, by simp, fun hf => absurd hdry (by simp [hf]),
            fun _ => ⟨rfl, rfl⟩⟩
        · rename_i hdry
          injection h with h1 h2 h3
          subst h1
          subst h2
          subst h3
          refine ⟨[_], rfl, ?_, fun _ => rfl, fun ht => absurd ht hdry⟩
          simp [save_checkpoint_records, dbRecordsProcessed]
      · split at h
        · split at h
          · exact RunOutcome.noConfusion h
          · rename_i affected heq
            split at h
            · rename_i hper
              obtain ⟨news2, hsv, hrp, hlast, hdry2⟩ := ih _ _ _ _ _ _ _ _ h
              refine ⟨(stats.records_upserted + affected) :: news2, ?_, ?_, ?_,
                fun ht => absurd ht (by simp [hper.2])⟩
              · rw [hsv, List.append_assoc]
                rfl
              · rw [hrp]
                simp only [dbRecordsProcessed, save_checkpoint_records, List.sum_cons]
                omega
              · intro hf
                have h2 := hlast hf
                have hne : news2 ≠ [] := by
                  intro hnil
                  rw [hnil] at h2
                  exact Option.noConfusion h2
                rw [getLast?_cons_of_ne_nil hne]
                exact h2
            · obtain ⟨news2, hsv, hrp, hlast, hdry2⟩ := ih _ _ _ _ _ _ _ _ h
              exact ⟨news2, hsv, hrp, hlast, hdry2⟩
        · split at h
          · rename_i hper
            obtain ⟨news2, hsv, hrp, hlast, hdry2⟩ := ih _ _ _ _ _ _ _ _ h
            refine ⟨stats.records_upserted :: news2, ?_, ?_, ?_,
              fun ht => absurd ht (by simp [hper.2])⟩
            · rw [hsv, List.append_assoc]
              rfl
            · rw [hrp]
              simp only [dbRecordsProcessed, save_checkpoint_records, List.sum_cons]
              omega
            · intro hf
              have h2 := hlast hf
              have hne : news2 ≠ [] := by
                intro hnil
                rw [hnil] at h2
                exact Option.noConfusion h2
              rw [getLast?_cons_of_ne_nil hne]
              exact h2
          · obtain ⟨news2, hsv, hrp, hlast, hdry2⟩ := ih _ _ _ _ _ _ _ _ h
            exact ⟨news2, hsv, hrp, hlast, hdry2⟩

/-- C10: `save_checkpoint` on an existing row adds the run's cumulative
`records_upserted` so far (not the delta since the previous save) to the
persisted `records_processed`; consequently a completed non-dry run that
saved more than once (trace `ts ++ [a, b]`, where `a` is the last periodic
save's cumulative amount and `b` the final save's) with at least one record
upserted before its last periodic save (`1 ≤ a`) adds strictly more to
`records_processed` than its `records_upserted`. -/
theorem save_checkpoint_cumulative :
    (∀ (C : Type) (row : SyncRow C) (checkpoint : C) (records : Nat) (status : String)
        (error : Option String),
      (save_checkpoint (some row) checkpoint records status error).records_processed =
        row.records_processed + records) ∧
    (∀ (T Row C : Type) (fetch_batch : C → List T × C)
        (transform : T → Except String (Option Row)) (upsert : List Row → Except String Nat)
        (max_batches : Option Nat) (fuel : Nat) (checkpoint : C) (db : Option (SyncRow C))
        (st : PipelineStats) (db2 : Option (SyncRow C)) (ts : List Nat) (a b : Nat),
      run fetch_batch transform upsert max_batches false fuel checkpoint db =
          RunOutcome.completed st db2 (ts ++ [a, b]) →
      1 ≤ a →
      dbRecordsProcessed db2 = dbRecordsProcessed db + (ts ++ [a, b]).sum ∧
      st.records_upserted < (ts ++ [a, b]).sum) := by
  constructor
  · intro C row checkpoint records status error
    rfl
  · intro T Row C fetch_batch transform upsert max_batches fuel checkpoint db st db2 ts a b
    intro h ha
    obtain ⟨news, hsv, hrp, hlast, _⟩ :=
      runLoop_completed_trace fetch_batch transform upsert max_batches false
        fuel checkpoint 0 {} db [] st db2 (ts ++ [a, b]) h
    rw [List.nil_append] at hsv
    subst hsv
    have hb : (ts ++ [a, b]).getLast? = some b := by
      have : ts ++ [a, b] = (ts ++ [a]) ++ [b] := by
        rw [List.append_assoc]
        rfl
      rw [this, List.getLast?_concat]
    have hup : st.records_upserted = b := by
      have h2 := hlast rfl
      rw [hb] at h2
      exact (Option.some.injEq _ _ ▸ h2).symm
    constructor
    · exact hrp
    · rw [hup]
      have : (ts ++ [a, b]).sum = ts.sum + (a + b) := by
        rw [List.sum_append]
        rfl
      omega

/-- C10 witness: a 12-batch run (periodic save at batch 10 adding 10, final
save adding 12) upserts 12 records but adds 22 to `records_processed`. -/
theorem save_checkpoint_cumulative_witness :
    1 ≤ 10 ∧
    (dbRecordsProcessed (some c10Row) =
      dbRecordsProcessed (none : Option (SyncRow Nat)) + (([] : List Nat) ++ [10, 12]).sum ∧
    c10Stats.records_upserted < (([] : List Nat) ++ [10, 12]).sum) := by
  refine ⟨by decide, ?_⟩
  exact save_checkpoint_cumulative.2 Nat Nat Nat c10Fetch c10Transform c10Upsert none
    20 0 none c10Stats (some c10Row) [] 10 12 (by rfl) (by decide)

/-- C8: with `overlap_tokens = max_tokens = 2` and a 3-token text the chunk
loop never terminates, for any number of iterations — the guard the source
installs after advancing (`token_start >= token_end`, commented "Prevent
infinite loop if overlap >= max_tokens") compares the NEW start against the
OLD end and is therefore equivalent to `overlap_tokens ≤ 0`: it can never
fire for a positive overlap, so the stalled advance is not detected and the
loop yields chunks forever instead of treating the configuration as a fatal
error. -/
theorem chunk_text_overlap_stall :
    (∀ fuel : Nat, chunk_text_loop 2 2 3 fuel = none) ∧
    (∀ overlap_tokens token_end : Int,
      token_end ≤ token_end - overlap_tokens ↔ overlap_tokens ≤ 0) := by
  constructor
  · intro fuel
    exact chunkLoop_stall fuel []
  · intro overlap_tokens token_end
    omega

/-- C4: content-hash deduplication.  First, any batch of texts all of whose
hashes already have stored embeddings is answered entirely from the store:
no provider call, no ledger entry, every result flagged as reused.  Second,
embedding and storing the same exact text twice (a text that chunks to
itself and is not yet stored) makes exactly one provider call and writes
exactly one ledger entry in total — the second pass finds the stored hash
and reuses it. -/
theorem embedding_dedup :
    (∀ (hash : String → String) (state : EmbedState) (texts : List String),
      (∀ t ∈ texts, check_existing state (hash t) = true) →
      (embed_texts hash state texts true).1 = state ∧
      (embed_texts hash state texts true).2 = texts.map fun t => (hash t, true)) ∧
    (∀ (hash : String → String) (chunk_fn : String → List String) (state : EmbedState)
        (text : String),
      chunk_fn text = [text] → check_existing state (hash text) = false →
      (embed_and_store hash chunk_fn (embed_and_store hash chunk_fn state text)
          text).provider_calls = state.provider_calls + 1 ∧
      (embed_and_store hash chunk_fn (embed_and_store hash chunk_fn state text)
          text).ledger_entries = state.ledger_entries + 1) := by
  constructor
  · intro hash state texts hall
    have hfil : (texts.filter fun t => !(true && check_existing state (hash t))) = [] := by
      rw [List.filter_eq_nil_iff]
      intro t ht
      simp [hall t ht]
    refine ⟨?_, ?_⟩
    · simp [embed_texts, hfil]
      rw [if_pos hall]
    · simp [embed_texts, hfil]
      rw [if_pos hall]
      exact List.map_congr_left fun t ht => by simp [hall t ht]
  · intro hash chunk_fn state text hchunk hmiss
    have e1 : embed_and_store hash chunk_fn state text =
        { stored_hashes := hash text :: state.stored_hashes,
          provider_calls := state.provider_calls + 1,
          ledger_entries := state.ledger_entries + 1 } := by
      unfold embed_and_store
      rw [hchunk]
      unfold embed_texts
      simp [hmiss]
    have e2 : check_existing (embed_and_store hash chunk_fn state text) (hash text) = true := by
      rw [e1]
      simp [check_existing]
    rw [e1] at e2
    constructor
    · rw [e1]
      unfold embed_and_store
      rw [hchunk]
      unfold embed_texts
      simp [e2]
    · rw [e1]
      unfold embed_and_store
      rw [hchunk]
      unfold embed_texts
      simp [e2]

/-- C4 witness: storing the same one-chunk text twice from an empty store
costs exactly one provider call and one ledger entry. -/
theorem embedding_dedup_witness :
    c4Chunks "a" = ["a"] ∧ check_existing c4State (c4Hash "a") = false ∧
    (embed_and_store c4Hash c4Chunks (embed_and_store c4Hash c4Chunks c4State "a")
        "a").provider_calls = c4State.provider_calls + 1 ∧
    (embed_and_store c4Hash c4Chunks (embed_and_store c4Hash c4Chunks c4State "a")
        "a").ledger_entries = c4State.ledger_entries + 1 := by
  refine ⟨rfl, rfl, ?_⟩
  exact embedding_dedup.2 c4Hash c4Chunks c4State "a" rfl rfl

/-- Helper for C6: with pairwise-distinct ids and none of them already in the
score map, the vector pass appends one `(id, rrf(rank) * weight, 0)` entry
per result, in rank order. -/
theorem processVector_eq {α : Type} [DecidableEq α] (vw : ℚ) :
    ∀ (ids : List α) (n : Nat) (sc : List (α × ℚ × ℚ)), ids.Nodup →
      (∀ id ∈ ids, (sc.any fun e => decide (e.1 = id)) = false) →
      (List.enumFrom n ids).foldl
          (fun sc p => updateVector sc p.2 (rrf_score (p.1 + 1) * vw)) sc =
        sc ++ ((List.enumFrom n ids).map
          fun p => (p.2, rrf_score (p.1 + 1) * vw, (0 : ℚ))) := by
  intro ids
  induction ids with
  | nil =>
    intro n sc _ _
    simp [List.enumFrom]
  | cons x xs ih =>
    intro n sc hnd hsc
    have hx : (sc.any fun e => decide (e.1 = x)) = false :=
      hsc x (List.mem_cons_self x xs)
    have hstep : updateVector sc x (rrf_score (n + 1) * vw) =
        sc ++ [(x, rrf_score (n + 1) * vw, 0)] := by
      simp [updateVector, hx]
    have hall2 : ∀ id ∈ xs,
        (((sc ++ [(x, rrf_score (n + 1) * vw, 0)]).any fun e => decide (e.1 = id)) = false) := by
      intro id hid
      rw [List.any_append]
      have h1 := hsc id (List.mem_cons_of_mem x hid)
      have h2 : ¬(x = id) := fun he => (List.nodup_cons.mp hnd).1 (he ▸ hid)
      simp [h1, h2]
    simp only [List.enumFrom, List.foldl_cons, List.map_cons]
    rw [hstep, ih (n + 1) _ (List.Nodup.of_cons hnd) hall2, List.append_assoc]
    rfl

/-- Helper for C6: looking an id up in the freshly-built vector score map
finds `(id, rrf(rank) * weight, 0)` at its rank, or nothing if absent. -/
theorem find_enumFrom_map {α : Type} [DecidableEq α] (vw : ℚ) (id0 : α) :
    ∀ (ids : List α) (n : Nat),
      (((List.enumFrom n ids).map
          fun p => (p.2, rrf_score (p.1 + 1) * vw, (0 : ℚ))).find?
          fun e => decide (e.1 = id0)) =
        (if id0 ∈ ids then some (id0, rrf_score (n + posIn ids id0 + 1) * vw, (0 : ℚ))
          else none) := by
  intro ids
  induction ids with
  | nil =>
    intro n
    simp [List.enumFrom]
  | cons x xs ih =>
    intro n
    simp only [List.enumFrom, List.map_cons]
    by_cases hx : x = id0
    · subst hx
      rw [List.find?_cons_of_pos _ (by simp)]
      simp [posIn]
    · rw [List.find?_cons_of_neg _ (by simp [hx]), ih (n + 1)]
      by_cases hmem : id0 ∈ xs
      · rw [if_pos hmem, if_pos (List.mem_cons_of_mem x hmem)]
        have hp : posIn (x :: xs) id0 = posIn xs id0 + 1 := by
          simp only [posIn, if_neg hx]
        rw [hp]
        have harith : n + 1 + posIn xs id0 + 1 = n + (posIn xs id0 + 1) + 1 := by omega
        rw [harith]
      · have hnm : id0 ∉ x :: xs := by
          intro hc
          rcases List.mem_cons.mp hc with he | hm
          · exact hx he.symm
          · exact hmem hm
        rw [if_neg hmem, if_neg hnm]

/-- Helper for C6: updating the keyword component of `id` makes the lookup of
`id` return the (possibly pre-existing) vector component paired with the new
keyword rrf. -/
theorem find_updateKeyword_self {α : Type} [DecidableEq α] (sc : List (α × ℚ × ℚ))
    (id : α) (r : ℚ) :
    ((updateKeyword sc id r).find? fun e => decide (e.1 = id)) =
      (match sc.find? fun e => decide (e.1 = id) with
        | some e => some (id, e.2.1, r)
        | none => some (id, 0, r)) := by
  unfold updateKeyword
  by_cases hany : (sc.any fun e => decide (e.1 = id)) = true
  · rw [if_pos hany, List.find?_map]
    have hpg : ((fun e : α × ℚ × ℚ => decide (e.1 = id)) ∘
        fun e : α × ℚ × ℚ => if e.1 = id then (e.1, e.2.1, r) else e) =
        fun e : α × ℚ × ℚ => decide (e.1 = id) := by
      funext e
      by_cases he : e.1 = id
      · simp [Function.comp, he]
      · simp [Function.comp, he]
    rw [hpg]
    cases hfind : sc.find? fun e => decide (e.1 = id) with
    | none =>
      exfalso
      rw [List.find?_eq_none] at hfind
      obtain ⟨e0, he0m, he0p⟩ := List.any_eq_true.mp hany
      exact hfind e0 he0m he0p
    | some e0 =>
      have hp := List.find?_some hfind
      have he1 : e0.1 = id := of_decide_eq_true hp
      simp [he1]
  · rw [if_neg hany]
    have hnone : (sc.find? fun e => decide (e.1 = id)) = none := by
      rw [List.find?_eq_none]
      intro a ha hpa
      exact hany (List.any_eq_true.mpr ⟨a, ha, hpa⟩)
    rw [List.find?_append, hnone]
    simp

/-- Helper for C6: updating the keyword component of `id` does not disturb
the lookup of any other id. -/
theorem find_updateKeyword_other {α : Type} [DecidableEq α] (sc : List (α × ℚ × ℚ))
    (id id0 : α) (r : ℚ) (hne : id0 ≠ id) :
    ((updateKeyword sc id r).find? fun e => decide (e.1 = id0)) =
      sc.find? fun e => decide (e.1 = id0) := by
  unfold updateKeyword
  by_cases hany : (sc.any fun e => decide (e.1 = id)) = true
  · rw [if_pos hany, List.find?_map]
    have hpg : ((fun e : α × ℚ × ℚ => decide (e.1 = id0)) ∘
        fun e : α × ℚ × ℚ => if e.1 = id then (e.1, e.2.1, r) else e) =
        fun e : α × ℚ × ℚ => decide (e.1 = id0) := by
      funext e
      by_cases he : e.1 = id
      · simp [Function.comp, he, hne.symm]
      · simp [Function.comp, he]
    rw [hpg]
    cases hfind : sc.find? fun e => decide (e.1 = id0) with
    | none => simp
    | some e0 =>
      have hp := List.find?_some hfind
      have he1 : e0.1 = id0 := of_decide_eq_true hp
      have he2 : ¬(e0.1 = id) := by
        rw [he1]
        exact hne
      simp [he2]
  · rw [if_neg hany, List.find?_append]
    have hsingle : (([(id, 0, r)] : List (α × ℚ × ℚ)).find? fun e => decide (e.1 = id0)) =
        none := by
      have : decide (id = id0) = false := decide_eq_false fun he => hne he.symm
      simp [List.find?_cons, this]
    rw [hsingle]
    simp

/-- Helper for C6: the keyword pass over pairwise-distinct keyword ids — the
lookup of any id after the pass is its pre-pass entry with the keyword
component overwritten at its keyword rank (or a fresh `(id, 0, rrf * kw)`
entry), and untouched for ids not in the keyword list. -/
theorem find_keywordFold {α : Type} [DecidableEq α] (kw : ℚ) (id0 : α) :
    ∀ (ids : List α) (n : Nat) (sc : List (α × ℚ × ℚ)), ids.Nodup →
      (((List.enumFrom n ids).foldl
          (fun sc p => updateKeyword sc p.2 (rrf_score (p.1 + 1) * kw)) sc).find?
          fun e => decide (e.1 = id0)) =
        (if id0 ∈ ids then
          (match sc.find? fun e => decide (e.1 = id0) with
            | some e => some (id0, e.2.1, rrf_score (n + posIn ids id0 + 1) * kw)
            | none => some (id0, 0, rrf_score (n + posIn ids id0 + 1) * kw))
        else sc.find? fun e => decide (e.1 = id0)) := by
  intro ids
  induction ids with
  | nil =>
    intro n sc _
    simp [List.enumFrom]
  | cons y ys ih =>
    intro n sc hnd
    simp only [List.enumFrom, List.foldl_cons]
    rw [ih (n + 1) _ (List.Nodup.of_cons hnd)]
    by_cases hy : id0 = y
    · subst hy
      have hnotmem : id0 ∉ ys := (List.nodup_cons.mp hnd).1
      rw [if_neg hnotmem, if_pos (List.mem_cons_self id0 ys)]
      rw [find_updateKeyword_self]
      have hp : posIn (id0 :: ys) id0 = 0 := by simp [posIn]
      rw [hp]
    · rw [find_updateKeyword_other sc y id0 _ hy]
      have hmemiff : (id0 ∈ y :: ys) ↔ id0 ∈ ys := by simp [List.mem_cons, hy]
      by_cases hmem : id0 ∈ ys
      · rw [if_pos hmem, if_pos (hmemiff.mpr hmem)]
        have hp : posIn (y :: ys) id0 = posIn ys id0 + 1 := by
          simp only [posIn]
          rw [if_neg (fun he : y = id0 => hy he.symm)]
        rw [hp]
        have harith : n + 1 + posIn ys id0 + 1 = n + (posIn ys id0 + 1) + 1 := by omega
        rw [harith]
      · rw [if_neg hmem, if_neg fun hc => hmem (hmemiff.mp hc)]

/-- C6: for fixed vector-rank and keyword-rank lists (each without duplicate
ids, as ranked result lists are), the fused score of an item present in both
at 1-indexed ranks `(v, k)` is `vector_weight * 1/(60+v) + keyword_weight *
1/(60+k)`; an item in only one list gets only that list's term (absence
contributes 0, not a penalty); items in neither list are absent from the
score map; and the final result list is the union of both lists sorted by
fused score descending (stably) truncated to `limit`. -/
theorem rrf_fusion_scores {α : Type} [DecidableEq α] (vector_weight keyword_weight : ℚ)
    (vector_ids keyword_ids : List α) (limit : Nat)
    (hv : vector_ids.Nodup) (hk : keyword_ids.Nodup) :
    (∀ id, id ∈ vector_ids → id ∈ keyword_ids →
      entryScore (fusedScores vector_weight keyword_weight vector_ids keyword_ids) id =
        some (vector_weight * rrf_score (posIn vector_ids id + 1) +
          keyword_weight * rrf_score (posIn keyword_ids id + 1))) ∧
    (∀ id, id ∈ vector_ids → id ∉ keyword_ids →
      entryScore (fusedScores vector_weight keyword_weight vector_ids keyword_ids) id =
        some (vector_weight * rrf_score (posIn vector_ids id + 1))) ∧
    (∀ id, id ∉ vector_ids → id ∈ keyword_ids →
      entryScore (fusedScores vector_weight keyword_weight vector_ids keyword_ids) id =
        some (keyword_weight * rrf_score (posIn keyword_ids id + 1))) ∧
    (∀ id, id ∉ vector_ids → id ∉ keyword_ids →
      entryScore (fusedScores vector_weight keyword_weight vector_ids keyword_ids) id =
        none) ∧
    hybrid_search_results vector_weight keyword_weight vector_ids keyword_ids limit =
      ((fusedScores vector_weight keyword_weight vector_ids keyword_ids).mergeSort
        fun a b => decide (b.2 ≤ a.2)).take limit ∧
    (hybrid_search_results vector_weight keyword_weight vector_ids keyword_ids
      limit).Pairwise fun a b => b.2 ≤ a.2 := by
  have hpv : processVector vector_weight vector_ids =
      (List.enumFrom 0 vector_ids).map
        fun p => (p.2, rrf_score (p.1 + 1) * vector_weight, 0) := by
    unfold processVector
    rw [show vector_ids.enum = List.enumFrom 0 vector_ids from rfl,
      processVector_eq vector_weight vector_ids 0 [] hv fun id _ => rfl,
      List.nil_append]
  have hpvfind : ∀ id0,
      ((processVector vector_weight vector_ids).find? fun e => decide (e.1 = id0)) =
        (if id0 ∈ vector_ids then
          some (id0, rrf_score (0 + posIn vector_ids id0 + 1) * vector_weight, 0)
        else none) := by
    intro id0
    rw [hpv]
    exact find_enumFrom_map vector_weight id0 vector_ids 0
  have hent : ∀ id0,
      ((hybridEntries vector_weight keyword_weight vector_ids keyword_ids).find?
          fun e => decide (e.1 = id0)) =
        (if id0 ∈ keyword_ids then
          (match (processVector vector_weight vector_ids).find?
              fun e => decide (e.1 = id0) with
            | some e =>
              some (id0, e.2.1, rrf_score (0 + posIn keyword_ids id0 + 1) * keyword_weight)
            | none =>
              some (id0, 0, rrf_score (0 + posIn keyword_ids id0 + 1) * keyword_weight))
        else (processVector vector_weight vector_ids).find?
          fun e => decide (e.1 = id0)) := by
    intro id0
    unfold hybridEntries
    rw [show keyword_ids.enum = List.enumFrom 0 keyword_ids from rfl]
    exact find_keywordFold keyword_weight id0 keyword_ids 0 _ hk
  have hscore : ∀ id0,
      entryScore (fusedScores vector_weight keyword_weight vector_ids keyword_ids) id0 =
        ((hybridEntries vector_weight keyword_weight vector_ids keyword_ids).find?
            fun e => decide (e.1 = id0)).map fun e => e.2.1 + e.2.2 := by
    intro id0
    unfold entryScore fusedScores
    rw [List.find?_map, Option.map_map]
    rfl
  refine ⟨?_, ?_, ?_, ?_, rfl, ?_⟩
  · intro id hv1 hk1
    rw [hscore, hent, if_pos hk1, hpvfind, if_pos hv1]
    simp only [Nat.zero_add, Option.map_some]
    exact congrArg some (by ring)
  · intro id hv1 hk1
    rw [hscore, hent, if_neg hk1, hpvfind, if_pos hv1]
    simp only [Nat.zero_add, Option.map_some]
    exact congrArg some (by ring)
  · intro id hv1 hk1
    rw [hscore, hent, if_pos hk1, hpvfind, if_neg hv1]
    simp only [Nat.zero_add, Option.map_some]
    exact congrArg some (by ring)
  · intro id hv1 hk1
    rw [hscore, hent, if_neg hk1, hpvfind, if_neg hv1]
    rfl
  · have htrans : ∀ a b c : α × ℚ, decide (b.2 ≤ a.2) = true →
        decide (c.2 ≤ b.2) = true → decide (c.2 ≤ a.2) = true := by
      intro a b c h1 h2
      exact decide_eq_true (le_trans (of_decide_eq_true h2) (of_decide_eq_true h1))
    have htot : ∀ a b : α × ℚ, (decide (b.2 ≤ a.2) || decide (a.2 ≤ b.2)) = true := by
      intro a b
      rcases le_total b.2 a.2 with h | h
      · simp [decide_eq_true h]
      · simp [decide_eq_true h]
    have hs := List.sorted_mergeSort htrans htot
      (fusedScores vector_weight keyword_weight vector_ids keyword_ids)
    exact (List.Pairwise.sublist (List.take_sublist _ _) hs).imp
      fun hab => of_decide_eq_true hab

/-- C6 witness: with default weights 0.7/0.3, vector list `[0, 1, 2]` and
keyword list `[1, 3]`, item 1 (ranks v=2, k=1) scores `0.7/62 + 0.3/61`. -/
theorem rrf_fusion_scores_witness :
    ([0, 1, 2] : List Nat).Nodup ∧ ([1, 3] : List Nat).Nodup ∧
    entryScore (fusedScores (7 / 10) (3 / 10) [0, 1, 2] [1, 3]) 1 =
      some ((7 : ℚ) / 10 * rrf_score (posIn [0, 1, 2] 1 + 1) +
        3 / 10 * rrf_score (posIn [1, 3] 1 + 1)) := by
  refine ⟨by decide, by decide, ?_⟩
  exact (rrf_fusion_scores (7 / 10) (3 / 10) [0, 1, 2] [1, 3] 10 (by decide)
    (by decide)).1 1 (by decide) (by decide)
